import Mathlib

/-!
Shallow embedding of `validate_tool_safety.py`, the pre-execution safety gate
for Bash tool calls: the rule-based checks (`check_unsafe_command`,
`check_never_whitelist`, `check_safe_command`), the whitelist pattern matcher
(`is_command_whitelisted`), the whitelist persistence (`add_to_whitelist`),
and the decision flow of `main` for a Bash command (`decideBash`).

Modelling conventions:
- Python strings are sequences of code points; string operations are defined on
  `String.data` (a `List Char`), which matches Python's code-point indexing and
  slicing.  `str.lower()` is modelled on the ASCII range (`lowerChar`); every
  ruleset entry in the source is pure ASCII, so the rule checks agree with the
  Python semantics on the commands the rules can ever match.
- The settings file is modelled as `Option (Option JVal)`: `none` means the
  file does not exist, `some none` means it exists but its content does not
  parse as JSON (Python `json.JSONDecodeError`), `some (some j)` means it
  parses to the JSON value `j`.  Directory creation / file write failure
  (Python `OSError`) is modelled by the `writeFails` flag of `FS`.
- Python exceptions that the source does not catch are modelled as
  `Except.error` values of type `PyErr`; an `Except.error` result of
  `decideBash` means the process dies with an uncaught exception and emits no
  decision at all.
- `fnmatch.fnmatch` (POSIX, where `os.path.normcase` is the identity) is
  modelled by `glob`, covering the `*` / `?` / literal fragment of its pattern
  language; the `Bash(...)` whitelist pattern syntax of this program never uses
  `[...]` character classes.
-/

set_option autoImplicit false

namespace ToolSafety

/-- Lower-case one character on the ASCII range, mirroring what Python
`str.lower` does to ASCII characters (code points 65-90 map to 97-122). -/
def lowerChar (ch : Char) : Char :=
  if 65 ≤ ch.toNat ∧ ch.toNat ≤ 90 then Char.ofNat (ch.toNat + 32) else ch

/-- Python `command.lower()`. -/
def pyLower (s : String) : String := ⟨s.data.map lowerChar⟩

/-- Python `s.startswith(pre)`. -/
def pyStartsWith (s pre : String) : Bool := pre.data.isPrefixOf s.data

/-- Python `s.endswith(suf)`. -/
def pyEndsWith (s suf : String) : Bool := suf.data.isSuffixOf s.data

/-- Scan for an occurrence of `needle` at any position of the second list. -/
def substrAux (needle : List Char) : List Char → Bool
  | [] => needle.isEmpty
  | c :: rest => needle.isPrefixOf (c :: rest) || substrAux needle rest

/-- Python `needle in hay` (substring containment). -/
def containsSub (needle hay : String) : Bool := substrAux needle.data hay.data

/-- Python `s[n:]` (code-point slicing). -/
def pyDrop (s : String) (n : Nat) : String := ⟨s.data.drop n⟩

/-- Python `s[:-n]` for `0 < n ≤ len(s)` (code-point slicing). -/
def pyDropRight (s : String) (n : Nat) : String :=
  ⟨s.data.take (s.data.length - n)⟩

/-- Does the string contain an ASCII upper-case character? -/
def hasUpper (s : String) : Bool :=
  s.data.any (fun ch => 65 ≤ ch.toNat && ch.toNat ≤ 90)

/-- The `UNSAFE_COMMANDS` ruleset of the source (lines 37-66): commands that
are never safe to run. -/
def UNSAFE_COMMANDS : List String := [
  "rm ", "rm\t", "rmdir", "unlink",
  "git clean", "git reset --hard", "git reset --mixed",
  "--force", " -f ", " -rf", "-rf ",
  ".env", ".ssh", ".aws", ".gnupg", "credentials", "secrets",
  "/etc/passwd", "/etc/shadow",
  "sk-", "api_key=", "apikey=", "API_KEY=",
  "token=", "TOKEN=", "secret=", "SECRET=",
  "password=", "PASSWORD=", "passwd=",
  "Bearer ", "Basic ",
  "sudo ", "sudo\t", "doas ",
  "chmod ", "chown ", "chgrp ",
  "systemctl", "service ",
  "pkill ", "kill ", "killall ",
  "eval ", "exec ",
  "docker run", "docker exec",
  "kubectl run", "kubectl exec",
  "curl ", "wget ", "nc ", "netcat",
  "brew install", "brew upgrade",
  "pip install", "npm install", "yarn add", "pnpm install", "bun install"]

/-- The `NEVER_WHITELIST_COMMANDS` ruleset of the source (lines 69-75). -/
def NEVER_WHITELIST_COMMANDS : List String := [
  "git push",
  "docker run", "docker exec",
  "kubectl exec", "kubectl run", "kubectl delete", "kubectl apply"]

/-- The `SAFE_COMMAND_BASES` ruleset of the source (lines 78-92). -/
def SAFE_COMMAND_BASES : List String := [
  "--version", "-v", "-V", "version",
  "git status", "git log", "git diff", "git branch", "git show", "git remote",
  "go build", "go test", "go run", "go mod", "go version",
  "cargo build", "cargo test", "cargo run", "cargo check",
  "npm test", "npm run", "npm start",
  "make", "cmake",
  "pytest", "python -m pytest",
  "ls", "cat ", "head ", "tail ", "less ", "more ",
  "find ", "grep ", "wc ", "du ", "df "]

/-- The `UNSAFE_COMMANDS` ruleset with its six mixed-case entries
(`"API_KEY="`, `"TOKEN="`, `"SECRET="`, `"PASSWORD="`, `"Bearer "`,
`"Basic "`) removed; used to state claim C10. -/
def UNSAFE_COMMANDS_LOWERCASE : List String := [
  "rm ", "rm\t", "rmdir", "unlink",
  "git clean", "git reset --hard", "git reset --mixed",
  "--force", " -f ", " -rf", "-rf ",
  ".env", ".ssh", ".aws", ".gnupg", "credentials", "secrets",
  "/etc/passwd", "/etc/shadow",
  "sk-", "api_key=", "apikey=",
  "token=", "secret=",
  "password=", "passwd=",
  "sudo ", "sudo\t", "doas ",
  "chmod ", "chown ", "chgrp ",
  "systemctl", "service ",
  "pkill ", "kill ", "killall ",
  "eval ", "exec ",
  "docker run", "docker exec",
  "kubectl run", "kubectl exec",
  "curl ", "wget ", "nc ", "netcat",
  "brew install", "brew upgrade",
  "pip install", "npm install", "yarn add", "pnpm install", "bun install"]

/-- The six mixed-case entries of `UNSAFE_COMMANDS`. -/
def UNSAFE_MIXEDCASE_ENTRIES : List String :=
  ["API_KEY=", "TOKEN=", "SECRET=", "PASSWORD=", "Bearer ", "Basic "]

/-- Source `check_unsafe_command` (lines 134-137). -/
def check_unsafe_command (command : String) : Bool :=
  UNSAFE_COMMANDS.any (fun p => containsSub p (pyLower command))

/-- Source `check_never_whitelist` (lines 140-143). -/
def check_never_whitelist (command : String) : Bool :=
  NEVER_WHITELIST_COMMANDS.any (fun p => containsSub p (pyLower command))

/-- Source `check_safe_command` (lines 146-149). -/
def check_safe_command (command : String) : Bool :=
  SAFE_COMMAND_BASES.any (fun p => containsSub p (pyLower command))

/-- Tri-state verdict of the Rule Classifier (spec section 4.1). -/
inductive RuleClass where
  | Unsafe
  | Safe
  | Unknown
deriving DecidableEq

/-- Rule Classifier verdict, mirroring the branch order of `main`
(lines 316-325): `Unsafe` is checked first, then `Safe`. -/
def classify (command : String) : RuleClass :=
  if check_unsafe_command command then RuleClass.Unsafe
  else if check_safe_command command then RuleClass.Safe
  else RuleClass.Unknown

/-- JSON values, the contents of `settings.local.json`. -/
inductive JVal where
  | str (s : String)
  | num (n : Int)
  | bool (b : Bool)
  | null
  | arr (elems : List JVal)
  | obj (fields : List (String × JVal))

/-- First binding of a key in a field list (Python `dict` lookup; documents
produced by `json.loads` have unique keys). -/
def lookupKV (k : String) : List (String × JVal) → Option JVal
  | [] => none
  | (k1, v) :: rest => if k1 = k then some v else lookupKV k rest

/-- Replace the value of the first binding of a key, keeping its position
(Python in-place update of a `dict` entry). -/
def replaceKV (k : String) (v : JVal) : List (String × JVal) → List (String × JVal)
  | [] => []
  | (k1, v1) :: rest =>
    if k1 = k then (k1, v) :: rest else (k1, v1) :: replaceKV k v rest

/-- Python `pat == element` for a string `pat` against a JSON value: equality
holds only for an equal string (`str == non-str` is `False`, no error). -/
def isStrEq (pat : String) : JVal → Bool
  | JVal.str s => pat == s
  | _ => false

/-- Uncaught Python exceptions of the modelled code paths. -/
inductive PyErr where
  | attrError
  | typeError
  | osError
deriving DecidableEq

/-- State of the settings store: the file (absent / unparseable / parsed JSON)
and whether directory creation or file write would raise an `OSError`. -/
structure FS where
  file : Option (Option JVal)
  writeFails : Bool

/-- Observable outcome of one hook invocation: either a printed allow decision
(`make_decision` with `safe=True`, lines 282-288) or no output at all
(`sys.exit(0)` without printing), which defers to the host. -/
inductive Output where
  | allow (reason : String)
  | defer
deriving DecidableEq

/-- Fallback classifier verdict after the `.get` defaults of lines 339-341
have been applied; `query_claude` returning `None` is modelled as the oracle
argument being `none`. -/
structure LLMResult where
  safe : Bool
  reason : String
  pattern : String

/-- Glob matching for the `*` / `?` / literal fragment used by
`fnmatch.fnmatch`: `*` matches any (possibly empty) sequence, `?` any single
character, anything else itself. -/
def glob : List Char → List Char → Bool
  | [], cs => cs.isEmpty
  | p :: ps, cs =>
    if p == '*' then cs.tails.any (fun suf => glob ps suf)
    else
      match cs with
      | [] => false
      | c :: cs' => (p == '?' || p == c) && glob ps cs'

/-- Python `fnmatch.fnmatch(s, pat)` on POSIX (identity `normcase`). -/
def fnmatch (s pat : String) : Bool := glob pat.data s.data

/-- One iteration of the pattern loop of `is_command_whitelisted`
(lines 174-191): does this stored raw pattern match the command? -/
def pattern_matches (pat command : String) : Bool :=
  if pyStartsWith pat "Bash(" && pyEndsWith pat ")" then
    let bashPat := pyDropRight (pyDrop pat 5) 1
    if pyEndsWith bashPat ":*" then
      pyStartsWith command (pyDropRight bashPat 2)
    else if containsSub "*" bashPat then
      fnmatch command bashPat
    else
      command == bashPat
  else false

/-- The `for pattern in allow_list` loop of `is_command_whitelisted`: a
non-string element raises `AttributeError` at `pattern.startswith` when it is
reached. -/
def scanAllow : List JVal → String → Except PyErr Bool
  | [], _ => Except.ok false
  | JVal.str p :: rest, command =>
    if pattern_matches p command then Except.ok true else scanAllow rest command
  | _ :: _, _ => Except.error PyErr.attrError

/-- Source `is_command_whitelisted` (lines 160-192).  A missing file or a
parse failure yields `False` (the `except` clause of lines 171-172); the
`settings.get("permissions", {}).get("allow", [])` chain raises
`AttributeError` on a non-object where `.get` is called (that error is not in
the `except` clause).  Iterating a string `allow` value yields its one-character
strings, none of which starts with `"Bash("`, hence `False`; iterating an
object yields its keys; iterating a number raises `TypeError`. -/
def is_command_whitelisted (fs : FS) (command : String) : Except PyErr Bool :=
  match fs.file with
  | none => Except.ok false
  | some none => Except.ok false
  | some (some (JVal.obj kvs)) =>
    match (lookupKV "permissions" kvs).getD (JVal.obj []) with
    | JVal.obj pkvs =>
      match (lookupKV "allow" pkvs).getD (JVal.arr []) with
      | JVal.arr xs => scanAllow xs command
      | JVal.str _ => Except.ok false
      | JVal.obj akvs => scanAllow (akvs.map (fun kv => JVal.str kv.1)) command
      | _ => Except.error PyErr.typeError
    | _ => Except.error PyErr.attrError
  | some (some _) => Except.error PyErr.attrError

/-- Final step of `add_to_whitelist` (lines 220-223): `kvs1` is the top-level
field list after the `permissions` setdefault, `pkvs1` the permissions field
list after the `allow` setdefault, `xs` the allow list.  If the pattern is
already present nothing happens; otherwise the pattern is appended and the
whole document is rewritten, which raises `OSError` when the write fails. -/
def addPatternWrite (fs : FS) (pat : String) (kvs1 pkvs1 : List (String × JVal))
    (xs : List JVal) : Except PyErr FS :=
  if xs.any (isStrEq pat) then Except.ok fs
  else
    let pkvs2 := replaceKV "allow" (JVal.arr (xs ++ [JVal.str pat])) pkvs1
    let kvs2 := replaceKV "permissions" (JVal.obj pkvs2) kvs1
    if fs.writeFails then Except.error PyErr.osError
    else Except.ok { fs with file := some (some (JVal.obj kvs2)) }

/-- The `allow_list = permissions.setdefault("allow", [])` step of
`add_to_whitelist` (line 217) and the membership test of line 220: an absent
key is inserted at the end with value `[]`; `pattern not in allow_list` on a
string value is a substring test (then `.append` raises `AttributeError`), on
an object it is a key test (then `.append` raises `AttributeError`), and on a
number / boolean / null it raises `TypeError`. -/
def addAllowAux (fs : FS) (pat : String) (kvs1 pkvs : List (String × JVal)) :
    Except PyErr FS :=
  match lookupKV "allow" pkvs with
  | none => addPatternWrite fs pat kvs1 (pkvs ++ [("allow", JVal.arr [])]) []
  | some (JVal.arr xs) => addPatternWrite fs pat kvs1 pkvs xs
  | some (JVal.str s) =>
    if containsSub pat s then Except.ok fs else Except.error PyErr.attrError
  | some (JVal.obj akvs) =>
    if (akvs.map (fun kv => kv.1)).contains pat then Except.ok fs
    else Except.error PyErr.attrError
  | some _ => Except.error PyErr.typeError

/-- Settings document as `add_to_whitelist` reads it (lines 207-213): an
absent or unparseable file is the empty object. -/
def effSettings (fs : FS) : JVal :=
  match fs.file with
  | some (some j) => j
  | _ => JVal.obj []

/-- Source `add_to_whitelist` (lines 195-223).  The never-whitelist, unsafe,
and empty/`"none"` pattern vetoes return without touching the store; an absent
or unparseable file is read as the empty object; `settings.setdefault` on a
non-object raises `AttributeError`. -/
def add_to_whitelist (fs : FS) (command pat : String) : Except PyErr FS :=
  if check_never_whitelist command then Except.ok fs
  else if check_unsafe_command command then Except.ok fs
  else if pat = "" ∨ pat = "none" then Except.ok fs
  else
    match effSettings fs with
    | JVal.obj kvs =>
      match lookupKV "permissions" kvs with
      | none => addAllowAux fs pat (kvs ++ [("permissions", JVal.obj [])]) []
      | some (JVal.obj pkvs) => addAllowAux fs pat kvs pkvs
      | some _ => Except.error PyErr.attrError
    | _ => Except.error PyErr.attrError

/-- View of the stored `permissions.allow` list, used to state theorems: the
list the code would operate on, or `none` when the document shape is not the
standard object / object / array nesting. -/
def storedAllow (fs : FS) : Option (List JVal) :=
  match effSettings fs with
  | JVal.obj kvs =>
    match lookupKV "permissions" kvs with
    | none => some []
    | some (JVal.obj pkvs) =>
      match lookupKV "allow" pkvs with
      | none => some []
      | some (JVal.arr xs) => some xs
      | some _ => none
    | some _ => none
  | _ => none

/-- Result of one hook invocation on a Bash tool call: the observable output,
the final store state, and whether the fallback classifier was invoked. -/
structure DecideResult where
  output : Output
  fs : FS
  llmCalled : Bool

/-- Decision flow of `main` (lines 294-352) for a Bash tool call whose
`tool_input.command` is `command`: the code-based unsafe check defers, the
code-based safe check allows, a whitelist hit defers, and otherwise the
fallback classifier is consulted — `none` (unavailable / timeout / unparseable)
defers, `safe=false` defers, and `safe=true` allows after attempting the
whitelist write for a non-empty command and pattern (line 346).  An uncaught
exception anywhere aborts the process with no output. -/
def decideBash (fs : FS) (llm : Option LLMResult) (command : String) :
    Except PyErr DecideResult :=
  if check_unsafe_command command then
    Except.ok ⟨Output.defer, fs, false⟩
  else if check_safe_command command then
    Except.ok ⟨Output.allow "Code safety check: known safe command", fs, false⟩
  else
    match is_command_whitelisted fs command with
    | Except.error e => Except.error e
    | Except.ok true => Except.ok ⟨Output.defer, fs, false⟩
    | Except.ok false =>
      match llm with
      | none => Except.ok ⟨Output.defer, fs, true⟩
      | some r =>
        if r.safe then
          match (if command != "" && r.pattern != "" then
                   add_to_whitelist fs command r.pattern
                 else Except.ok fs) with
          | Except.error e => Except.error e
          | Except.ok fs' =>
            Except.ok ⟨Output.allow ("LLM assessment: " ++ r.reason), fs', true⟩
        else Except.ok ⟨Output.defer, fs, true⟩

/-- Store whose settings file holds the single whitelist entry
`Bash(go test:*)`, with writes succeeding. -/
def fsGoTest : FS :=
  ⟨some (some (JVal.obj [("permissions",
      JVal.obj [("allow", JVal.arr [JVal.str "Bash(go test:*)"])])])), false⟩

/-- Store whose settings file holds the single whitelist entry `Bash(foo:*)`,
with writes succeeding. -/
def fsFoo : FS :=
  ⟨some (some (JVal.obj [("permissions",
      JVal.obj [("allow", JVal.arr [JVal.str "Bash(foo:*)"])])])), false⟩

/-- Store with no settings file, with writes succeeding. -/
def fsEmpty : FS := ⟨none, false⟩

/-- Store with no settings file, on which directory creation / file write
raises `OSError`. -/
def fsReadOnly : FS := ⟨none, true⟩

/-- Valid code points below the surrogate range round-trip through
`Char.ofNat`. -/
theorem toNat_ofNat_valid (n : Nat) (h : n < 55296) : (Char.ofNat n).toNat = n := by
  have hv : n.isValidChar := Or.inl h
  rw [Char.ofNat, dif_pos hv]
  simp [Char.ofNatAux, Char.toNat, UInt32.toNat, UInt32.ofNatCore]

/-- The result of `lowerChar` is never an ASCII upper-case character. -/
theorem lowerChar_not_upper (ch : Char) :
    ¬(65 ≤ (lowerChar ch).toNat ∧ (lowerChar ch).toNat ≤ 90) := by
  unfold lowerChar
  by_cases h : 65 ≤ ch.toNat ∧ ch.toNat ≤ 90
  · rw [if_pos h]
    rw [toNat_ofNat_valid (ch.toNat + 32) (by omega)]
    omega
  · rw [if_neg h]
    exact h

/-- A substring occurrence forces every character of the needle to occur in
the haystack. -/
theorem mem_of_substrAux {needle hay : List Char}
    (h : substrAux needle hay = true) {ch : Char} (hm : ch ∈ needle) :
    ch ∈ hay := by
  induction hay with
  | nil =>
    simp [substrAux, List.isEmpty_iff] at h
    subst h
    cases hm
  | cons c rest ih =>
    rw [substrAux, Bool.or_eq_true] at h
    cases h with
    | inl hp => exact (List.isPrefixOf_iff_prefix.mp hp).subset hm
    | inr hr => exact List.mem_cons_of_mem _ (ih hr)

/-- A needle containing an ASCII upper-case character never occurs in a
lower-cased string. -/
theorem containsSub_lower_of_hasUpper (p c : String) (hu : hasUpper p = true) :
    containsSub p (pyLower c) = false := by
  cases hc : containsSub p (pyLower c) with
  | false => rfl
  | true =>
    exfalso
    rw [hasUpper, List.any_eq_true] at hu
    obtain ⟨ch, hch, hup⟩ := hu
    have hmem : ch ∈ (pyLower c).data := mem_of_substrAux hc hch
    rw [pyLower] at hmem
    simp only [List.mem_map] at hmem
    obtain ⟨x, _, hx⟩ := hmem
    refine lowerChar_not_upper x ?_
    rw [hx]
    rw [Bool.and_eq_true, decide_eq_true_eq, decide_eq_true_eq] at hup
    exact hup

/-- Ruleset entries with an ASCII upper-case character are dead: the
substring test against the lower-cased command ignores them. -/
theorem any_lower_filter (l : List String) (c : String) :
    l.any (fun p => containsSub p (pyLower c)) =
      (l.filter (fun p => !hasUpper p)).any (fun p => containsSub p (pyLower c)) := by
  induction l with
  | nil => rfl
  | cons p rest ih =>
    by_cases hp : hasUpper p = true
    · simp [List.any_cons, List.filter_cons, hp,
        containsSub_lower_of_hasUpper p c hp, ih]
    · simp [List.any_cons, List.filter_cons, hp, ih]

/-- Looking up a key other than the replaced one is unaffected. -/
theorem lookupKV_replaceKV_ne (k k0 : String) (v : JVal)
    (l : List (String × JVal)) (h : k ≠ k0) :
    lookupKV k (replaceKV k0 v l) = lookupKV k l := by
  induction l with
  | nil => rfl
  | cons kv rest ih =>
    obtain ⟨k1, v1⟩ := kv
    by_cases h1 : k1 = k0
    · subst h1
      rw [replaceKV, if_pos rfl, lookupKV, lookupKV,
        if_neg (fun hk => h hk.symm), if_neg (fun hk => h hk.symm)]
    · rw [replaceKV, if_neg h1, lookupKV, lookupKV]
      by_cases h2 : k1 = k
      · rw [if_pos h2, if_pos h2]
      · rw [if_neg h2, if_neg h2, ih]

/-- Replacing the value of a present key makes later lookups see the new
value. -/
theorem lookupKV_replaceKV_eq (k0 : String) (v : JVal)
    (l : List (String × JVal)) (h : (lookupKV k0 l).isSome) :
    lookupKV k0 (replaceKV k0 v l) = some v := by
  induction l with
  | nil => simp [lookupKV] at h
  | cons kv rest ih =>
    obtain ⟨k1, v1⟩ := kv
    by_cases h1 : k1 = k0
    · rw [replaceKV, if_pos h1, lookupKV, if_pos h1]
    · rw [lookupKV, if_neg h1] at h
      rw [replaceKV, if_neg h1, lookupKV, if_neg h1, ih h]

/-- Appending a binding for a fresh key leaves other lookups unchanged. -/
theorem lookupKV_append_ne (k k0 : String) (v : JVal)
    (l : List (String × JVal)) (h : k ≠ k0) :
    lookupKV k (l ++ [(k0, v)]) = lookupKV k l := by
  induction l with
  | nil =>
    show (if k0 = k then some v else lookupKV k []) = lookupKV k []
    rw [if_neg (fun hk : k0 = k => h hk.symm)]
  | cons kv rest ih =>
    obtain ⟨k1, v1⟩ := kv
    rw [List.cons_append, lookupKV, lookupKV]
    by_cases h2 : k1 = k
    · rw [if_pos h2, if_pos h2]
    · rw [if_neg h2, if_neg h2, ih]

/-- Appending a binding for an absent key makes it visible. -/
theorem lookupKV_append_self (k0 : String) (v : JVal)
    (l : List (String × JVal)) (h : lookupKV k0 l = none) :
    lookupKV k0 (l ++ [(k0, v)]) = some v := by
  induction l with
  | nil => simp [lookupKV]
  | cons kv rest ih =>
    obtain ⟨k1, v1⟩ := kv
    rw [lookupKV] at h
    by_cases h2 : k1 = k0
    · rw [if_pos h2] at h
      cases h
    · rw [if_neg h2] at h
      rw [List.cons_append, lookupKV, if_neg h2, ih h]


theorem add_veto_noop (fs : FS) (command pat : String)
    (h : pat = "" ∨ pat = "none" ∨ check_never_whitelist command = true ∨
      check_unsafe_command command = true) :
    add_to_whitelist fs command pat = Except.ok fs := by
  unfold add_to_whitelist
  by_cases h1 : check_never_whitelist command = true
  · rw [if_pos h1]
  · rw [if_neg h1]
    by_cases h2 : check_unsafe_command command = true
    · rw [if_pos h2]
    · rw [if_neg h2]
      have h3 : pat = "" ∨ pat = "none" := by
        rcases h with h | h | h | h
        · exact Or.inl h
        · exact Or.inr h
        · exact absurd h h1
        · exact absurd h h2
      rw [if_pos h3]

theorem addPatternWrite_spec (fs : FS) (pat : String)
    (kvs1 pkvs1 : List (String × JVal)) (xs : List JVal)
    (hperm1 : (lookupKV "permissions" kvs1).isSome)
    (hallow1 : (lookupKV "allow" pkvs1).isSome)
    (hmem : xs.any (isStrEq pat) = false) :
    (fs.writeFails = true →
      addPatternWrite fs pat kvs1 pkvs1 xs = Except.error PyErr.osError) ∧
    (fs.writeFails = false →
      ∃ fs', addPatternWrite fs pat kvs1 pkvs1 xs = Except.ok fs' ∧
        fs'.writeFails = false ∧
        storedAllow fs' = some (xs ++ [JVal.str pat])) := by
  constructor
  · intro hw
    simp only [addPatternWrite, hmem, Bool.false_eq_true, if_false, hw, if_true]
  · intro hw
    simp only [addPatternWrite, hmem, Bool.false_eq_true, if_false, hw]
    refine ⟨_, rfl, rfl, ?_⟩
    have hl1 : lookupKV "permissions" (replaceKV "permissions"
        (JVal.obj (replaceKV "allow" (JVal.arr (xs ++ [JVal.str pat])) pkvs1)) kvs1) =
        some (JVal.obj (replaceKV "allow" (JVal.arr (xs ++ [JVal.str pat])) pkvs1)) :=
      lookupKV_replaceKV_eq _ _ _ hperm1
    have hl2 : lookupKV "allow" (replaceKV "allow" (JVal.arr (xs ++ [JVal.str pat])) pkvs1) =
        some (JVal.arr (xs ++ [JVal.str pat])) :=
      lookupKV_replaceKV_eq _ _ _ hallow1
    simp only [storedAllow, effSettings, hl1, hl2]

theorem addAllowAux_spec (fs : FS) (pat : String)
    (kvs1 pkvs : List (String × JVal)) (xs : List JVal)
    (hperm1 : (lookupKV "permissions" kvs1).isSome)
    (hallow : lookupKV "allow" pkvs = some (JVal.arr xs) ∨
      (lookupKV "allow" pkvs = none ∧ xs = [])) :
    (xs.any (isStrEq pat) = true →
      addAllowAux fs pat kvs1 pkvs = Except.ok fs) ∧
    (xs.any (isStrEq pat) = false → fs.writeFails = true →
      addAllowAux fs pat kvs1 pkvs = Except.error PyErr.osError) ∧
    (xs.any (isStrEq pat) = false → fs.writeFails = false →
      ∃ fs', addAllowAux fs pat kvs1 pkvs = Except.ok fs' ∧
        fs'.writeFails = false ∧
        storedAllow fs' = some (xs ++ [JVal.str pat])) := by
  rcases hallow with hallow | ⟨hallow, hxs⟩
  · refine ⟨?_, ?_, ?_⟩
    · intro hmem
      simp only [addAllowAux, hallow, addPatternWrite, hmem, if_true]
    · intro hmem hw
      simp only [addAllowAux, hallow]
      exact (addPatternWrite_spec fs pat kvs1 pkvs xs hperm1
        (by rw [hallow]; rfl) hmem).1 hw
    · intro hmem hw
      simp only [addAllowAux, hallow]
      exact (addPatternWrite_spec fs pat kvs1 pkvs xs hperm1
        (by rw [hallow]; rfl) hmem).2 hw
  · subst hxs
    refine ⟨?_, ?_, ?_⟩
    · intro hmem
      simp at hmem
    · intro hmem hw
      simp only [addAllowAux, hallow]
      exact (addPatternWrite_spec fs pat kvs1 (pkvs ++ [("allow", JVal.arr [])]) []
        hperm1 (by rw [lookupKV_append_self _ _ _ hallow]; rfl) rfl).1 hw
    · intro hmem hw
      simp only [addAllowAux, hallow]
      exact (addPatternWrite_spec fs pat kvs1 (pkvs ++ [("allow", JVal.arr [])]) []
        hperm1 (by rw [lookupKV_append_self _ _ _ hallow]; rfl) rfl).2 hw

theorem add_to_whitelist_spec (fs : FS) (command pat : String) (xs : List JVal)
    (hsa : storedAllow fs = some xs)
    (h1 : check_never_whitelist command = false)
    (h2 : check_unsafe_command command = false)
    (hp1 : pat ≠ "") (hp2 : pat ≠ "none") :
    (xs.any (isStrEq pat) = true →
      add_to_whitelist fs command pat = Except.ok fs) ∧
    (xs.any (isStrEq pat) = false → fs.writeFails = true →
      add_to_whitelist fs command pat = Except.error PyErr.osError) ∧
    (xs.any (isStrEq pat) = false → fs.writeFails = false →
      ∃ fs', add_to_whitelist fs command pat = Except.ok fs' ∧
        fs'.writeFails = false ∧
        storedAllow fs' = some (xs ++ [JVal.str pat])) := by
  have hv : ¬(pat = "" ∨ pat = "none") := by
    rintro (h | h)
    · exact hp1 h
    · exact hp2 h
  unfold add_to_whitelist
  rw [if_neg (by simp [h1]), if_neg (by simp [h2]), if_neg hv]
  unfold storedAllow at hsa
  cases heff : effSettings fs with
  | obj kvs =>
    rw [heff] at hsa
    simp only [] at hsa
    cases hperm : lookupKV "permissions" kvs with
    | none =>
      rw [hperm] at hsa
      simp only [] at hsa
      have hxs : xs = [] := by injection hsa with h; exact h.symm
      subst hxs
      simp only [hperm]
      exact addAllowAux_spec fs pat (kvs ++ [("permissions", JVal.obj [])]) [] []
        (by rw [lookupKV_append_self _ _ _ hperm]; rfl)
        (Or.inr ⟨rfl, rfl⟩)
    | some pv =>
      rw [hperm] at hsa
      cases pv with
      | obj pkvs =>
        simp only [] at hsa
        simp only [hperm]
        cases hallow : lookupKV "allow" pkvs with
        | none =>
          rw [hallow] at hsa
          simp only [] at hsa
          have hxs : xs = [] := by injection hsa with h; exact h.symm
          subst hxs
          exact addAllowAux_spec fs pat kvs pkvs []
            (by rw [hperm]; rfl) (Or.inr ⟨hallow, rfl⟩)
        | some av =>
          rw [hallow] at hsa
          cases av with
          | arr xs0 =>
            simp only [] at hsa
            have hxs : xs0 = xs := by injection hsa
            subst hxs
            exact addAllowAux_spec fs pat kvs pkvs xs0
              (by rw [hperm]; rfl) (Or.inl hallow)
          | str s => simp at hsa
          | num n => simp at hsa
          | bool b => simp at hsa
          | null => simp at hsa
          | obj o => simp at hsa
      | str s => simp at hsa
      | num n => simp at hsa
      | bool b => simp at hsa
      | null => simp at hsa
      | arr a => simp at hsa
  | str s => rw [heff] at hsa; simp at hsa
  | num n => rw [heff] at hsa; simp at hsa
  | bool b => rw [heff] at hsa; simp at hsa
  | null => rw [heff] at hsa; simp at hsa
  | arr elems => rw [heff] at hsa; simp at hsa

theorem addAllowAux_ok_changed (fs : FS) (pat : String)
    (kvs1 pkvs : List (String × JVal)) (fs' : FS)
    (h : addAllowAux fs pat kvs1 pkvs = Except.ok fs')
    (hch : fs'.file ≠ fs.file) :
    ∃ pkvs1 xs,
      fs'.file = some (some (JVal.obj (replaceKV "permissions"
        (JVal.obj (replaceKV "allow" (JVal.arr (xs ++ [JVal.str pat])) pkvs1))
        kvs1))) ∧
      (pkvs1 = pkvs ∨
        (lookupKV "allow" pkvs = none ∧ pkvs1 = pkvs ++ [("allow", JVal.arr [])])) := by
  unfold addAllowAux at h
  cases hallow : lookupKV "allow" pkvs with
  | none =>
    rw [hallow] at h
    simp only [addPatternWrite, List.any_nil, Bool.false_eq_true, if_false] at h
    split at h
    · cases h
    · refine ⟨pkvs ++ [("allow", JVal.arr [])], [], ?_, Or.inr ⟨rfl, rfl⟩⟩
      injection h with h2
      rw [← h2]
  | some av =>
    rw [hallow] at h
    cases av with
    | arr xs =>
      simp only [addPatternWrite] at h
      split at h
      · injection h with h2
        rw [← h2] at hch
        exact absurd rfl hch
      · split at h
        · cases h
        · refine ⟨pkvs, xs, ?_, Or.inl rfl⟩
          injection h with h2
          rw [← h2]
    | str s =>
      simp only [] at h
      split at h
      · injection h with h2
        rw [← h2] at hch
        exact absurd rfl hch
      · cases h
    | obj akvs =>
      simp only [] at h
      split at h
      · injection h with h2
        rw [← h2] at hch
        exact absurd rfl hch
      · cases h
    | num n => simp only [] at h; cases h
    | bool b => simp only [] at h; cases h
    | null => simp only [] at h; cases h

/-- Claim C8: when an append actually rewrites the settings file, every
top-level key other than `permissions` keeps its value, and inside
`permissions` every key other than `allow` keeps its value, whatever the prior
file content was (an absent or unparseable file reads as the empty object). -/
theorem c8_preserves_keys (fs : FS) (command pat : String) (fs' : FS)
    (hok : add_to_whitelist fs command pat = Except.ok fs')
    (hch : fs'.file ≠ fs.file) :
    ∃ kvs kvs', effSettings fs = JVal.obj kvs ∧
      fs'.file = some (some (JVal.obj kvs')) ∧
      (∀ k, k ≠ "permissions" → lookupKV k kvs' = lookupKV k kvs) ∧
      (∀ pkvs0, lookupKV "permissions" kvs = some (JVal.obj pkvs0) →
        ∃ pkvs', lookupKV "permissions" kvs' = some (JVal.obj pkvs') ∧
          ∀ k2, k2 ≠ "allow" → lookupKV k2 pkvs' = lookupKV k2 pkvs0) := by
  unfold add_to_whitelist at hok
  split at hok
  · injection hok with h2
    rw [h2] at hch
    exact absurd rfl hch
  · split at hok
    · injection hok with h2
      rw [h2] at hch
      exact absurd rfl hch
    · split at hok
      · injection hok with h2
        rw [h2] at hch
        exact absurd rfl hch
      · split at hok
        · -- effSettings fs = JVal.obj kvs
          rename_i kvs heff
          split at hok
          · -- lookupKV "permissions" kvs = none
            rename_i hperm
            obtain ⟨pkvs1, xs, hfile, _⟩ :=
              addAllowAux_ok_changed fs pat (kvs ++ [("permissions", JVal.obj [])]) [] fs' hok hch
            refine ⟨kvs, _, heff, hfile, ?_, ?_⟩
            · intro k hk
              rw [lookupKV_replaceKV_ne _ _ _ _ hk, lookupKV_append_ne _ _ _ _ hk]
            · intro pkvs0 hp0
              rw [hperm] at hp0
              cases hp0
          · -- lookupKV "permissions" kvs = some (JVal.obj pkvs)
            rename_i pkvs hperm
            obtain ⟨pkvs1, xs, hfile, hpk⟩ :=
              addAllowAux_ok_changed fs pat kvs pkvs fs' hok hch
            refine ⟨kvs, _, heff, hfile, ?_, ?_⟩
            · intro k hk
              rw [lookupKV_replaceKV_ne _ _ _ _ hk]
            · intro pkvs0 hp0
              rw [hperm] at hp0
              injection hp0 with hp1
              injection hp1 with hp2
              subst hp2
              refine ⟨replaceKV "allow" (JVal.arr (xs ++ [JVal.str pat])) pkvs1,
                lookupKV_replaceKV_eq _ _ _ (by rw [hperm]; rfl), ?_⟩
              intro k2 hk2
              rcases hpk with hpk | ⟨hnone, hpk⟩
              · rw [hpk, lookupKV_replaceKV_ne _ _ _ _ hk2]
              · rw [hpk, lookupKV_replaceKV_ne _ _ _ _ hk2,
                  lookupKV_append_ne _ _ _ _ hk2]
          · -- lookupKV "permissions" kvs = some non-obj
            cases hok
        · -- effSettings fs non-obj
          cases hok

/-- Claim C6: for every stored whitelist pattern of the prefix-class shape
(body ends in `:*`) and every command, the Pattern Matcher matches exactly
when the command text starts with the body stripped of the `:*` suffix, with
no token or separator requirement. -/
theorem c6_prefix_class (pat command : String)
    (h1 : pyStartsWith pat "Bash(" = true)
    (h2 : pyEndsWith pat ")" = true)
    (h3 : pyEndsWith (pyDropRight (pyDrop pat 5) 1) ":*" = true) :
    pattern_matches pat command =
      pyStartsWith command (pyDropRight (pyDropRight (pyDrop pat 5) 1) 2) := by
  simp only [pattern_matches, h1, h2, Bool.and_self, if_true, h3]

/-- Witness for C6 at the claim's own instance: the pattern
`Bash(go test:*)` matches the command `go testing`. -/
theorem c6_witness :
    pyStartsWith "Bash(go test:*)" "Bash(" = true ∧
    pyEndsWith "Bash(go test:*)" ")" = true ∧
    pyEndsWith (pyDropRight (pyDrop "Bash(go test:*)" 5) 1) ":*" = true ∧
    pattern_matches "Bash(go test:*)" "go testing" = true := by
  refine ⟨rfl, rfl, rfl, ?_⟩
  rw [c6_prefix_class "Bash(go test:*)" "go testing" rfl rfl rfl]
  rfl

/-- Claim C7: a prefix-wildcard pattern keeps the space before `*`
significant: `Bash(git diff *)` matches `git diff ` followed by anything, in
particular `git diff HEAD`, but not the bare `git diff`. -/
theorem c7_prefix_wildcard :
    (∀ rest : String,
      pattern_matches "Bash(git diff *)" ("git diff " ++ rest) = true) ∧
    pattern_matches "Bash(git diff *)" "git diff HEAD" = true ∧
    pattern_matches "Bash(git diff *)" "git diff" = false := by
  refine ⟨?_, rfl, rfl⟩
  intro rest
  show fnmatch ("git diff " ++ rest) "git diff *" = true
  unfold fnmatch
  rw [String.data_append]
  simp [glob]

/-- Claim C1 is false as the claim states it: with the whitelist containing
`Bash(go test:*)`, the command `go test -v -race` does match the stored
pattern and is not classified unsafe, yet `decideBash` returns the Allow
decision produced by the code-based safe check (line 321-325), not Defer —
the safe check fires before the whitelist is consulted. -/
theorem c1_counterexample :
    is_command_whitelisted fsGoTest "go test -v -race" = Except.ok true ∧
    check_unsafe_command "go test -v -race" = false ∧
    decideBash fsGoTest none "go test -v -race" =
      Except.ok ⟨Output.allow "Code safety check: known safe command",
        fsGoTest, false⟩ :=
  ⟨rfl, rfl, rfl⟩

/-- Claim C1 amended: for every Bash command that matches a stored whitelist
pattern and is classified neither Unsafe nor Safe by the code-based checks,
`decideBash` returns Defer, with no fallback-classifier call and no whitelist
write. -/
theorem c1_amended (fs : FS) (llm : Option LLMResult) (command : String)
    (hu : check_unsafe_command command = false)
    (hs : check_safe_command command = false)
    (hw : is_command_whitelisted fs command = Except.ok true) :
    decideBash fs llm command = Except.ok ⟨Output.defer, fs, false⟩ := by
  unfold decideBash
  rw [if_neg (by simp [hu]), if_neg (by simp [hs]), hw]

/-- Witness for the amended C1: the command `foo bar` is Unknown to the rule
checks, matches the stored `Bash(foo:*)`, and defers without any fallback
call or store change. -/
theorem c1_amended_witness :
    check_unsafe_command "foo bar" = false ∧
    check_safe_command "foo bar" = false ∧
    is_command_whitelisted fsFoo "foo bar" = Except.ok true ∧
    decideBash fsFoo none "foo bar" = Except.ok ⟨Output.defer, fsFoo, false⟩ :=
  ⟨rfl, rfl, rfl, c1_amended fsFoo none "foo bar" rfl rfl rfl⟩

/-- Claim C2 describes intended behavior the code does not implement: when
the fallback classifier returns safe with a pattern and the persistence write
raises an I/O error, the uncaught `OSError` from `add_to_whitelist`
(lines 222-223) propagates out of `main` (line 347) and the already-decided
Allow output of lines 349-351 is never emitted. -/
theorem c2_persist_failure_suppresses_allow :
    decideBash fsReadOnly (some ⟨true, "runs a build", "Bash(foo:*)"⟩) "foo bar" =
      Except.error PyErr.osError :=
  rfl

/-- Claim C3: any command hitting the Unsafe ruleset is classified Unsafe and
`decideBash` defers on it with no fallback-classifier call and no store
change, regardless of any SafeBase hit. -/
theorem c3_unsafe_dominates (command : String)
    (hu : check_unsafe_command command = true) :
    classify command = RuleClass.Unsafe ∧
    ∀ (fs : FS) (llm : Option LLMResult),
      decideBash fs llm command = Except.ok ⟨Output.defer, fs, false⟩ := by
  constructor
  · simp [classify, hu]
  · intro fs llm
    unfold decideBash
    rw [if_pos hu]

/-- Witness for C3 on a command hitting both the Unsafe ruleset (`--force`)
and the SafeBase ruleset (`git status`): unsafe dominates. -/
theorem c3_witness :
    check_unsafe_command "git status --force" = true ∧
    check_safe_command "git status --force" = true ∧
    (classify "git status --force" = RuleClass.Unsafe ∧
      ∀ (fs : FS) (llm : Option LLMResult),
        decideBash fs llm "git status --force" =
          Except.ok ⟨Output.defer, fs, false⟩) :=
  ⟨rfl, rfl, c3_unsafe_dominates "git status --force" rfl⟩

/-- Claim C5: for `git push origin main` (never-whitelistable, Unknown to the
rule checks) with the fallback returning safe and pattern `Bash(git push:*)`,
`decideBash` returns the Allow decision while the store is left unchanged —
the whitelist write is vetoed inside `add_to_whitelist` (lines 198-199). -/
theorem c5_never_whitelist_veto (fs : FS) (reason : String)
    (hw : is_command_whitelisted fs "git push origin main" = Except.ok false) :
    check_never_whitelist "git push origin main" = true ∧
    classify "git push origin main" = RuleClass.Unknown ∧
    decideBash fs (some ⟨true, reason, "Bash(git push:*)"⟩)
        "git push origin main" =
      Except.ok ⟨Output.allow ("LLM assessment: " ++ reason), fs, true⟩ := by
  refine ⟨rfl, rfl, ?_⟩
  have h1 : check_unsafe_command "git push origin main" = false := rfl
  have h2 : check_safe_command "git push origin main" = false := rfl
  unfold decideBash
  rw [if_neg (by simp [h1]), if_neg (by simp [h2]), hw]
  rfl

/-- Witness for C5 with an empty store. -/
theorem c5_witness :
    is_command_whitelisted fsEmpty "git push origin main" = Except.ok false ∧
    (check_never_whitelist "git push origin main" = true ∧
      classify "git push origin main" = RuleClass.Unknown ∧
      decideBash fsEmpty (some ⟨true, "pushes current branch", "Bash(git push:*)"⟩)
          "git push origin main" =
        Except.ok ⟨Output.allow "LLM assessment: pushes current branch",
          fsEmpty, true⟩) :=
  ⟨rfl, c5_never_whitelist_veto fsEmpty "pushes current branch" rfl⟩

/-- Claim C4: `add_to_whitelist` is a silent no-op for an empty or `"none"`
pattern, for a never-whitelistable or unsafe command, and for a pattern
already stored; otherwise (with the document well-shaped and the write
succeeding) it appends the pattern at the end of the stored list. -/
theorem c4_append_contract (fs : FS) (command pat : String) :
    (pat = "" ∨ pat = "none" ∨ check_never_whitelist command = true ∨
        check_unsafe_command command = true →
      add_to_whitelist fs command pat = Except.ok fs) ∧
    (∀ xs, storedAllow fs = some xs → xs.any (isStrEq pat) = true →
      add_to_whitelist fs command pat = Except.ok fs) ∧
    (∀ xs, storedAllow fs = some xs → xs.any (isStrEq pat) = false →
      check_never_whitelist command = false →
      check_unsafe_command command = false →
      pat ≠ "" → pat ≠ "none" → fs.writeFails = false →
      ∃ fs', add_to_whitelist fs command pat = Except.ok fs' ∧
        storedAllow fs' = some (xs ++ [JVal.str pat])) := by
  refine ⟨add_veto_noop fs command pat, ?_, ?_⟩
  · intro xs hsa hmem
    by_cases h1 : check_never_whitelist command = true
    · exact add_veto_noop fs command pat (Or.inr (Or.inr (Or.inl h1)))
    by_cases h2 : check_unsafe_command command = true
    · exact add_veto_noop fs command pat (Or.inr (Or.inr (Or.inr h2)))
    by_cases hp1 : pat = ""
    · exact add_veto_noop fs command pat (Or.inl hp1)
    by_cases hp2 : pat = "none"
    · exact add_veto_noop fs command pat (Or.inr (Or.inl hp2))
    exact (add_to_whitelist_spec fs command pat xs hsa
      (by simpa using h1) (by simpa using h2) hp1 hp2).1 hmem
  · intro xs hsa hmem h1 h2 hp1 hp2 hwf
    obtain ⟨fs', hok, _, hsa'⟩ :=
      (add_to_whitelist_spec fs command pat xs hsa h1 h2 hp1 hp2).2.2 hmem hwf
    exact ⟨fs', hok, hsa'⟩

/-- Witness for C4: a vetoed command is a silent no-op, an already-present
pattern is a silent no-op, and a fresh pattern is appended at the end. -/
theorem c4_witness :
    add_to_whitelist fsFoo "git push origin main" "Bash(x:*)" = Except.ok fsFoo ∧
    add_to_whitelist fsFoo "foo bar" "Bash(foo:*)" = Except.ok fsFoo ∧
    (∃ fs', add_to_whitelist fsFoo "foo bar" "Bash(bar:*)" = Except.ok fs' ∧
      storedAllow fs' =
        some ([JVal.str "Bash(foo:*)"] ++ [JVal.str "Bash(bar:*)"])) :=
  ⟨(c4_append_contract fsFoo "git push origin main" "Bash(x:*)").1
      (Or.inr (Or.inr (Or.inl rfl))),
    (c4_append_contract fsFoo "foo bar" "Bash(foo:*)").2.1
      [JVal.str "Bash(foo:*)"] rfl rfl,
    (c4_append_contract fsFoo "foo bar" "Bash(bar:*)").2.2
      [JVal.str "Bash(foo:*)"] rfl rfl rfl rfl (by decide) (by decide) rfl⟩

/-- Witness for C8 starting from an absent settings file: the write happens
and the rewritten document satisfies the preservation contract. -/
theorem c8_witness :
    ∃ fs', add_to_whitelist fsEmpty "foo bar" "Bash(foo:*)" = Except.ok fs' ∧
      (∃ kvs kvs', effSettings fsEmpty = JVal.obj kvs ∧
        fs'.file = some (some (JVal.obj kvs')) ∧
        (∀ k, k ≠ "permissions" → lookupKV k kvs' = lookupKV k kvs) ∧
        (∀ pkvs0, lookupKV "permissions" kvs = some (JVal.obj pkvs0) →
          ∃ pkvs', lookupKV "permissions" kvs' = some (JVal.obj pkvs') ∧
            ∀ k2, k2 ≠ "allow" → lookupKV k2 pkvs' = lookupKV k2 pkvs0)) :=
  ⟨fsFoo, rfl, c8_preserves_keys fsEmpty "foo bar" "Bash(foo:*)" fsFoo rfl
    (by simp [fsFoo, fsEmpty])⟩

/-- Claim C9 is false as stated: for a never-whitelistable command both
appends are silent no-ops, so the pattern ends up present zero times, not
exactly once. -/
theorem c9_counterexample :
    ((add_to_whitelist fsEmpty "git push origin main" "Bash(git push:*)").bind
      (fun fs1 =>
        add_to_whitelist fs1 "git push origin main" "Bash(git push:*)")) =
      Except.ok fsEmpty ∧
    storedAllow fsEmpty = some [] ∧
    List.countP (isStrEq "Bash(git push:*)") [] = 0 :=
  ⟨rfl, rfl, rfl⟩

/-- Claim C9 amended: when the command is not vetoed, the pattern is neither
empty nor `"none"`, and the stored list holds the pattern at most once, two
successful appends leave the pattern present exactly once, and the second
append does not change the store at all. -/
theorem c9_amended (fs fs1 fs2 : FS) (command pat : String) (xs : List JVal)
    (hnw : check_never_whitelist command = false)
    (hun : check_unsafe_command command = false)
    (hp1 : pat ≠ "") (hp2 : pat ≠ "none")
    (hsa : storedAllow fs = some xs)
    (hcount : xs.countP (isStrEq pat) ≤ 1)
    (h1 : add_to_whitelist fs command pat = Except.ok fs1)
    (h2 : add_to_whitelist fs1 command pat = Except.ok fs2) :
    fs2 = fs1 ∧
    ∃ xs1, storedAllow fs1 = some xs1 ∧ xs1.countP (isStrEq pat) = 1 := by
  obtain ⟨hm, herr, hwr⟩ := add_to_whitelist_spec fs command pat xs hsa hnw hun hp1 hp2
  cases hmem : xs.any (isStrEq pat) with
  | true =>
    have hfs1 : fs1 = fs := by
      have hthis : (Except.ok fs : Except PyErr FS) = Except.ok fs1 := (hm hmem).symm.trans h1
      simpa using hthis.symm
    subst hfs1
    have hfs2 : fs2 = fs1 := by
      have hthis : (Except.ok fs1 : Except PyErr FS) = Except.ok fs2 := (hm hmem).symm.trans h2
      simpa using hthis.symm
    have hpos : 0 < xs.countP (isStrEq pat) := by
      rw [List.any_eq_true] at hmem
      obtain ⟨x, hx, hpx⟩ := hmem
      exact List.countP_pos_iff.mpr ⟨x, hx, hpx⟩
    exact ⟨hfs2, xs, hsa, by omega⟩
  | false =>
    cases hwf : fs.writeFails with
    | true =>
      rw [herr hmem hwf] at h1
      cases h1
    | false =>
      obtain ⟨fs', hok, hwf', hsa'⟩ := hwr hmem hwf
      have hfs1 : fs1 = fs' := by
        have hthis : (Except.ok fs' : Except PyErr FS) = Except.ok fs1 := hok.symm.trans h1
        simpa using hthis.symm
      rw [← hfs1] at hsa'
      obtain ⟨hm2, _, _⟩ := add_to_whitelist_spec fs1 command pat
        (xs ++ [JVal.str pat]) hsa' hnw hun hp1 hp2
      have hmem2 : (xs ++ [JVal.str pat]).any (isStrEq pat) = true := by
        simp [List.any_append, isStrEq]
      have hfs2 : fs2 = fs1 := by
        have hthis : (Except.ok fs1 : Except PyErr FS) = Except.ok fs2 := (hm2 hmem2).symm.trans h2
        simpa using hthis.symm
      refine ⟨hfs2, xs ++ [JVal.str pat], hsa', ?_⟩
      rw [List.countP_append]
      have hz : xs.countP (isStrEq pat) = 0 := by
        rw [List.countP_eq_zero]
        intro a ha
        rw [List.any_eq_false] at hmem
        simp [hmem a ha]
      rw [hz]
      simp [isStrEq]

/-- Witness for the amended C9: appending `Bash(foo:*)` for the unvetoed
command `foo bar` twice, starting from an absent file, stores the pattern
exactly once and the second append changes nothing. -/
theorem c9_amended_witness :
    add_to_whitelist fsEmpty "foo bar" "Bash(foo:*)" = Except.ok fsFoo ∧
    add_to_whitelist fsFoo "foo bar" "Bash(foo:*)" = Except.ok fsFoo ∧
    (fsFoo = fsFoo ∧ ∃ xs1, storedAllow fsFoo = some xs1 ∧
      xs1.countP (isStrEq "Bash(foo:*)") = 1) :=
  ⟨rfl, rfl, c9_amended fsEmpty fsFoo fsFoo "foo bar" "Bash(foo:*)" []
    rfl rfl (by decide) (by decide) rfl (by decide) rfl rfl⟩

/-- Claim C10: the six mixed-case entries of the Unsafe ruleset can never
match, because the command is lower-cased before the substring test: the
unsafe check agrees everywhere with the same check over the ruleset with
those entries removed, and in particular a command whose only secret marker
is `Bearer ` is not classified unsafe. -/
theorem c10_mixedcase_entries_dead :
    (∀ command : String, check_unsafe_command command =
      UNSAFE_COMMANDS_LOWERCASE.any (fun p => containsSub p (pyLower command))) ∧
    (∀ command : String,
      UNSAFE_MIXEDCASE_ENTRIES.all
        (fun p => !containsSub p (pyLower command)) = true) ∧
    check_unsafe_command "echo Authorization: Bearer abc123" = false := by
  have hfil : UNSAFE_COMMANDS.filter (fun p => !hasUpper p) =
      UNSAFE_COMMANDS_LOWERCASE := rfl
  refine ⟨?_, ?_, rfl⟩
  · intro c
    rw [check_unsafe_command, any_lower_filter, hfil]
  · intro c
    have hA := containsSub_lower_of_hasUpper "API_KEY=" c rfl
    have hB := containsSub_lower_of_hasUpper "TOKEN=" c rfl
    have hC := containsSub_lower_of_hasUpper "SECRET=" c rfl
    have hD := containsSub_lower_of_hasUpper "PASSWORD=" c rfl
    have hE := containsSub_lower_of_hasUpper "Bearer " c rfl
    have hF := containsSub_lower_of_hasUpper "Basic " c rfl
    simp [UNSAFE_MIXEDCASE_ENTRIES, hA, hB, hC, hD, hE, hF]

end ToolSafety
